import Mathlib

/-!
Verification of the clustered-shading pipeline of the RapidGL demo
`src/demos/27_clustered_shading` against its design description.

The GLSL / C++ sources are shallowly embedded:

* GLSL `uint` arithmetic is `Nat` with an explicit `% 2 ^ 32` where overflow matters.
* GLSL `float` computations are modelled over `ℝ`; the C / GLSL cast of a
  float to an integer truncates toward zero, modelled by `cTrunc`.
* SSBO arrays of unspecified length are modelled as total functions `ℕ → _`.
* The nondeterministic completion order of GPU work items feeding an atomic
  counter is modelled by an explicit execution order (a permutation of the
  work-item ids) or, where only the per-item values matter, by a list given in
  allocation order.

Pipeline stages whose shader sources are not part of this source snapshot
(the cluster grid builder, the active cluster marker and the light culler are
only referenced by `ClusteredShading::init_app`) are modelled from the spec;
their definitions carry a `Modelled from the spec:` doc comment.
-/

/-- View-space vectors (GLSL `vec3`), modelled over `ℝ`. -/
abbrev Vec3 : Type := ℝ × ℝ × ℝ

/-- Truncation toward zero of a real number, the semantics of the C cast
`static_cast<int>` and of the GLSL constructor `int(float)`. -/
noncomputable def cTrunc (x : ℝ) : ℤ :=
  if 0 ≤ x then ⌊x⌋ else ⌈x⌉

/-- The GLSL conversion `uint(float)`: truncation toward zero.  The conversion
is undefined in GLSL for negative inputs; the model clamps those to `0`. -/
noncomputable def uintOfReal (x : ℝ) : ℕ :=
  (cTrunc x).toNat

/-- C `fmodf`: `x - trunc (x / y) * y`. -/
noncomputable def rfmod (x y : ℝ) : ℝ :=
  x - y * (cTrunc (x / y) : ℝ)

/-- Host initialization `ClusteredShading::init_app`:
`m_slice_scale = grid_size.z / log2(far / near)`. -/
noncomputable def sliceScale (gz nearZ farZ : ℝ) : ℝ :=
  gz / Real.logb 2 (farZ / nearZ)

/-- Host initialization `ClusteredShading::init_app`:
`m_slice_bias = -(grid_size.z * log2(near) / log2(far / near))`. -/
noncomputable def sliceBias (gz nearZ farZ : ℝ) : ℝ :=
  -(gz * Real.logb 2 nearZ / Real.logb 2 (farZ / nearZ))

/-- `computeClusterIndex1D` from `pbr_clustered.frag`:
`x + grid_dim.x * (y + grid_dim.y * z)` in GLSL `uint` arithmetic
(wrapping modulo `2 ^ 32`). -/
def computeClusterIndex1D (gridDimX gridDimY : ℕ) (x y z : ℕ) : ℕ :=
  (x + gridDimX * (y + gridDimY * z)) % 2 ^ 32

/-- `computeClusterIndex3D` from `pbr_clustered.frag`.  The fragment's
view-space `z` is negative (right-handed coordinates) and is negated before
use; `log` is the natural logarithm; `logGridDimY` is the shader uniform
`u_log_grid_dim_y`. -/
noncomputable def computeClusterIndex3D (nearZ logGridDimY : ℝ)
    (clusterSizeX clusterSizeY : ℝ) (screenPosX screenPosY viewZ : ℝ) :
    ℕ × ℕ × ℕ :=
  (uintOfReal (screenPosX / clusterSizeX),
   uintOfReal (screenPosY / clusterSizeY),
   uintOfReal (Real.log (-viewZ / nearZ) * logGridDimY))

/-- Modelled from the spec: the Active Cluster Marker compute shader is not
part of this source snapshot (only its consumers are).  Spec 4.2 has the
marker "derive its cluster index via the same (x,y,z)→index formula as
shading" and spec 4.6 states the function is "shared verbatim" between the
marker and the shading stage, so the marker's 3-D index derivation is the
very formula of `computeClusterIndex3D`. -/
noncomputable def markerClusterIndex3D (nearZ logGridDimY : ℝ)
    (clusterSizeX clusterSizeY : ℝ) (screenPosX screenPosY viewZ : ℝ) :
    ℕ × ℕ × ℕ :=
  (uintOfReal (screenPosX / clusterSizeX),
   uintOfReal (screenPosY / clusterSizeY),
   uintOfReal (Real.log (-viewZ / nearZ) * logGridDimY))

/-- Modelled from the spec: the marker flattens its 3-D index with the same
`x + Gx * (y + Gy * z)` formula as the shading stage (spec 4.2 / 4.6),
in GLSL `uint` arithmetic. -/
def markerClusterIndex1D (gridDimX gridDimY : ℕ) (x y z : ℕ) : ℕ :=
  (x + gridDimX * (y + gridDimY * z)) % 2 ^ 32

/-- The mixed-radix value `x + Gx * (y + Gy * z)` is below `Gx * Gy * Gz`
whenever each coordinate is in range. -/
theorem rawIndex_lt (gx gy gz x y z : ℕ) (hx : x < gx) (hy : y < gy) (hz : z < gz) :
    x + gx * (y + gy * z) < gx * gy * gz := by
  calc x + gx * (y + gy * z) < gx + gx * (y + gy * z) := by omega
    _ = gx * (1 + (y + gy * z)) := by ring
    _ ≤ gx * (gy + gy * z) := Nat.mul_le_mul_left gx (by omega)
    _ = gx * gy * (1 + z) := by ring
    _ ≤ gx * gy * gz := Nat.mul_le_mul_left (gx * gy) (by omega)

theorem rawIndex_mod (gx gy x y z : ℕ) (hx : x < gx) :
    (x + gx * (y + gy * z)) % gx = x := by
  rw [Nat.mul_comm gx (y + gy * z), Nat.add_mul_mod_self_right, Nat.mod_eq_of_lt hx]

theorem rawIndex_div (gx gy x y z : ℕ) (hx : x < gx) :
    (x + gx * (y + gy * z)) / gx = y + gy * z := by
  rw [Nat.mul_comm gx (y + gy * z), Nat.add_mul_div_right _ _ (Nat.pos_of_ne_zero (by omega)),
    Nat.div_eq_of_lt hx, Nat.zero_add]

/-- C5 counterexample: over GLSL 32-bit `uint` arithmetic the flat-index
formula wraps for large grids, so the computed index differs from
`x + Gx * (y + Gy * z)` and the mapping is not injective: with
`Gx = Gy = 65536`, `Gz = 2`, the in-range indices `(0,0,1)` and `(0,0,0)`
collide at flat index `0`. -/
theorem computeClusterIndex1D_wrap_counterexample :
    ((0 : ℕ) < 65536 ∧ (0 : ℕ) < 65536 ∧ (1 : ℕ) < 2) ∧
    computeClusterIndex1D 65536 65536 0 0 1 ≠ 0 + 65536 * (0 + 65536 * 1) ∧
    computeClusterIndex1D 65536 65536 0 0 1 = computeClusterIndex1D 65536 65536 0 0 0 ∧
    (0, 0, (1 : ℕ)) ≠ ((0, 0, 0) : ℕ × ℕ × ℕ) := by
  refine ⟨⟨by norm_num, by norm_num, by norm_num⟩, ?_, ?_, by decide⟩
  · show (0 + 65536 * (0 + 65536 * 1)) % 2 ^ 32 ≠ 0 + 65536 * (0 + 65536 * 1)
    norm_num
  · show (0 + 65536 * (0 + 65536 * 1)) % 2 ^ 32 = (0 + 65536 * (0 + 65536 * 0)) % 2 ^ 32
    norm_num

/-- C5 (amended): whenever the grid is small enough that no 32-bit wrap can
occur (`Gx * Gy * Gz ≤ 2 ^ 32`), the flat cluster index computed by
`computeClusterIndex1D` equals `x + Gx * (y + Gy * z)` on in-range 3-D
indices, and the map is a bijection from the 3-D index domain onto
`[0, Gx * Gy * Gz)`. -/
theorem computeClusterIndex1D_formula_bijection (gx gy gz : ℕ)
    (hcap : gx * gy * gz ≤ 2 ^ 32) :
    (∀ x y z, x < gx → y < gy → z < gz →
        computeClusterIndex1D gx gy x y z = x + gx * (y + gy * z)) ∧
    Set.BijOn (fun p : ℕ × ℕ × ℕ => computeClusterIndex1D gx gy p.1 p.2.1 p.2.2)
      {p : ℕ × ℕ × ℕ | p.1 < gx ∧ p.2.1 < gy ∧ p.2.2 < gz}
      (Set.Iio (gx * gy * gz)) := by
  have hval : ∀ x y z, x < gx → y < gy → z < gz →
      computeClusterIndex1D gx gy x y z = x + gx * (y + gy * z) := by
    intro x y z hx hy hz
    exact Nat.mod_eq_of_lt (lt_of_lt_of_le (rawIndex_lt gx gy gz x y z hx hy hz) hcap)
  refine ⟨hval, ?_, ?_, ?_⟩
  · intro p hp
    rcases hp with ⟨hx, hy, hz⟩
    have := rawIndex_lt gx gy gz p.1 p.2.1 p.2.2 hx hy hz
    simpa [hval p.1 p.2.1 p.2.2 hx hy hz, Set.mem_Iio] using this
  · intro p hp q hq hpq
    rcases hp with ⟨hpx, hpy, hpz⟩
    rcases hq with ⟨hqx, hqy, hqz⟩
    simp only [hval p.1 p.2.1 p.2.2 hpx hpy hpz, hval q.1 q.2.1 q.2.2 hqx hqy hqz] at hpq
    have hx : p.1 = q.1 := by
      have h1 := rawIndex_mod gx gy p.1 p.2.1 p.2.2 hpx
      have h2 := rawIndex_mod gx gy q.1 q.2.1 q.2.2 hqx
      rw [← h1, ← h2, hpq]
    have hyz : p.2.1 + gy * p.2.2 = q.2.1 + gy * q.2.2 := by
      have h1 := rawIndex_div gx gy p.1 p.2.1 p.2.2 hpx
      have h2 := rawIndex_div gx gy q.1 q.2.1 q.2.2 hqx
      rw [← h1, ← h2, hpq]
    have hy : p.2.1 = q.2.1 := by
      have h1 : (p.2.1 + gy * p.2.2) % gy = p.2.1 := by
        rw [Nat.mul_comm, Nat.add_mul_mod_self_right, Nat.mod_eq_of_lt hpy]
      have h2 : (q.2.1 + gy * q.2.2) % gy = q.2.1 := by
        rw [Nat.mul_comm, Nat.add_mul_mod_self_right, Nat.mod_eq_of_lt hqy]
      rw [← h1, ← h2, hyz]
    have hz : p.2.2 = q.2.2 := by
      have hgy : 0 < gy := Nat.pos_of_ne_zero (by omega)
      have hmul : gy * p.2.2 = gy * q.2.2 := by omega
      exact Nat.eq_of_mul_eq_mul_left hgy hmul
    exact Prod.ext hx (Prod.ext hy hz)
  · intro i hi
    have hi' : i < gx * gy * gz := hi
    have hgx : 0 < gx := by
      rcases Nat.eq_zero_or_pos gx with h | h
      · subst h; simp at hi'
      · exact h
    have hgy : 0 < gy := by
      rcases Nat.eq_zero_or_pos gy with h | h
      · subst h; simp at hi'
      · exact h
    have hgxy : 0 < gx * gy := Nat.mul_pos hgx hgy
    refine ⟨(i % gx, i / gx % gy, i / gx / gy), ⟨?_, ?_, ?_⟩, ?_⟩
    · exact Nat.mod_lt _ hgx
    · exact Nat.mod_lt _ hgy
    · rw [Nat.div_div_eq_div_mul]
      rw [Nat.div_lt_iff_lt_mul hgxy]
      calc i < gx * gy * gz := hi'
        _ = gz * (gx * gy) := by ring
    · show computeClusterIndex1D gx gy (i % gx) (i / gx % gy) (i / gx / gy) = i
      have hx : i % gx < gx := Nat.mod_lt _ hgx
      have hy : i / gx % gy < gy := Nat.mod_lt _ hgy
      have hz : i / gx / gy < gz := by
        rw [Nat.div_div_eq_div_mul, Nat.div_lt_iff_lt_mul hgxy]
        calc i < gx * gy * gz := hi'
          _ = gz * (gx * gy) := by ring
      rw [hval _ _ _ hx hy hz, Nat.mod_add_div (i / gx) gy, Nat.mod_add_div i gx]

/-- C5 witness: the demo's own grid configuration `16 × 9 × 24` is far below
the wrap limit. -/
theorem computeClusterIndex1D_formula_bijection_witness :
    (16 * 9 * 24 : ℕ) ≤ 2 ^ 32 ∧
    ((∀ x y z, x < 16 → y < 9 → z < 24 →
        computeClusterIndex1D 16 9 x y z = x + 16 * (y + 9 * z)) ∧
     Set.BijOn (fun p : ℕ × ℕ × ℕ => computeClusterIndex1D 16 9 p.1 p.2.1 p.2.2)
       {p : ℕ × ℕ × ℕ | p.1 < 16 ∧ p.2.1 < 9 ∧ p.2.2 < 24}
       (Set.Iio (16 * 9 * 24))) :=
  ⟨by norm_num, computeClusterIndex1D_formula_bijection 16 9 24 (by norm_num)⟩

/-- C3: for every grid configuration and every (screen position, view-space
depth) input, the cluster-index derivation of the Active Cluster Marker and
the one of the shading-side Cluster Lookup yield the same flat cluster
index. -/
theorem marker_lookup_same_flat_index (gridDimX gridDimY : ℕ)
    (nearZ logGridDimY clusterSizeX clusterSizeY screenPosX screenPosY viewZ : ℝ) :
    markerClusterIndex1D gridDimX gridDimY
        (markerClusterIndex3D nearZ logGridDimY clusterSizeX clusterSizeY
          screenPosX screenPosY viewZ).1
        (markerClusterIndex3D nearZ logGridDimY clusterSizeX clusterSizeY
          screenPosX screenPosY viewZ).2.1
        (markerClusterIndex3D nearZ logGridDimY clusterSizeX clusterSizeY
          screenPosX screenPosY viewZ).2.2
      = computeClusterIndex1D gridDimX gridDimY
        (computeClusterIndex3D nearZ logGridDimY clusterSizeX clusterSizeY
          screenPosX screenPosY viewZ).1
        (computeClusterIndex3D nearZ logGridDimY clusterSizeX clusterSizeY
          screenPosX screenPosY viewZ).2.1
        (computeClusterIndex3D nearZ logGridDimY clusterSizeX clusterSizeY
          screenPosX screenPosY viewZ).2.2 :=
  rfl

/-- The `UniqueActiveClustersSSBO` / `CullLightsDispatchArgsSSBO` state seen by
`update_cull_lights_indirect_args.comp`. -/
structure DispatchState where
  uniqueClustersCount : ℕ
  numGroups : ℕ × ℕ × ℕ

/-- `update_cull_lights_indirect_args.comp`: the single work item writes
`num_groups = uvec3(unique_clusters_count, 1, 1)`. -/
def updateCullLightsIndirectArgs (s : DispatchState) : DispatchState :=
  { s with numGroups := (s.uniqueClustersCount, 1, 1) }

/-- C4: for every value of the active-cluster counter, the Indirect Dispatch
Sizer writes the work-group tuple `(active_count, 1, 1)`; in particular a
zero active-cluster count yields zero culling work groups in X. -/
theorem updateCullLightsIndirectArgs_spec (s : DispatchState) :
    (updateCullLightsIndirectArgs s).numGroups = (s.uniqueClustersCount, 1, 1) ∧
    (s.uniqueClustersCount = 0 → (updateCullLightsIndirectArgs s).numGroups.1 = 0) :=
  ⟨rfl, fun h => by simp [updateCullLightsIndirectArgs, h]⟩

/-- C4 witness at a concrete zero-count state. -/
theorem updateCullLightsIndirectArgs_spec_witness :
    (updateCullLightsIndirectArgs ⟨0, (7, 7, 7)⟩).numGroups = (0, 1, 1) ∧
    (updateCullLightsIndirectArgs ⟨0, (7, 7, 7)⟩).numGroups.1 = 0 :=
  ⟨(updateCullLightsIndirectArgs_spec ⟨0, (7, 7, 7)⟩).1,
   (updateCullLightsIndirectArgs_spec ⟨0, (7, 7, 7)⟩).2 rfl⟩

/-- `find_unique_clusters.comp`: one work item per cluster id; a flagged
cluster atomically increments `unique_clusters_count` and stores its id at the
returned slot.  The dense output, listed in slot order, is therefore exactly
the flagged ids in work-item completion order; `order` is that (arbitrary)
completion order of the `cluster_id` work items. -/
def findUniqueClusters (order : List ℕ) (clustersFlags : ℕ → Bool) : List ℕ :=
  order.filter clustersFlags

/-- C2: for any completion order of the work items over clusters
`0, …, n-1`, the compacted list holds exactly the flagged cluster ids (as a
set) and its length — the final `unique_clusters_count` — is the number of
flagged clusters. -/
theorem findUniqueClusters_spec (n : ℕ) (order : List ℕ) (clustersFlags : ℕ → Bool)
    (horder : order.Perm (List.range n)) :
    (findUniqueClusters order clustersFlags).toFinset
        = (Finset.range n).filter (fun i => clustersFlags i) ∧
    (findUniqueClusters order clustersFlags).length
        = ((Finset.range n).filter (fun i => clustersFlags i)).card := by
  have hperm : (findUniqueClusters order clustersFlags).Perm
      ((List.range n).filter clustersFlags) := horder.filter clustersFlags
  have hnodup : ((List.range n).filter clustersFlags).Nodup :=
    (List.nodup_range n).filter clustersFlags
  have htofin : ((List.range n).filter clustersFlags).toFinset
      = (Finset.range n).filter (fun i => clustersFlags i) := by
    ext a
    simp [List.mem_filter, List.mem_range, Finset.mem_filter, Finset.mem_range]
  constructor
  · rw [← htofin]
    ext a
    simp [List.mem_toFinset, hperm.mem_iff]
  · calc (findUniqueClusters order clustersFlags).length
        = ((List.range n).filter clustersFlags).length := hperm.length_eq
      _ = ((List.range n).filter clustersFlags).toFinset.card :=
        (List.toFinset_card_of_nodup hnodup).symm
      _ = ((Finset.range n).filter (fun i => clustersFlags i)).card := by rw [htofin]

/-- C2 witness: three clusters compacted in the completion order `[2, 0, 1]`
with clusters `0` and `2` flagged. -/
theorem findUniqueClusters_spec_witness :
    ([2, 0, 1] : List ℕ).Perm (List.range 3) ∧
    ((findUniqueClusters [2, 0, 1] (fun i => decide (i ≠ 1))).toFinset
        = (Finset.range 3).filter (fun i => decide (i ≠ 1)) ∧
     (findUniqueClusters [2, 0, 1] (fun i => decide (i ≠ 1))).length
        = ((Finset.range 3).filter (fun i => decide (i ≠ 1))).card) :=
  ⟨by decide, findUniqueClusters_spec 3 [2, 0, 1] (fun i => decide (i ≠ 1)) (by decide)⟩

/-- Per-cluster light range, the GLSL `LightGrid` struct `{offset, count}`. -/
structure LightGrid where
  offset : ℕ
  count : ℕ

/-- Folding an accumulate-loop equals adding the sum of the mapped list. -/
theorem foldl_add_eq_sum {α M : Type} [AddCommMonoid M] (f : α → M) (l : List α) (a : M) :
    l.foldl (fun acc x => acc + f x) a = a + (l.map f).sum := by
  induction l generalizing a with
  | nil => simp
  | cons x xs ih => simp [ih, add_assoc]

/-- The radiance accumulation of `main` in `pbr_clustered.frag`: all
directional lights, then the point lights of the fragment's cluster's index
range, then the spot lights of that range, then IBL and emission.  The BRDF
evaluations (`calcDirectionalLight`, `calcPointLight`, `calcSpotLight`,
`indirectLightingIBL`, `material.emission` from `pbr_lighting.glh`) are
abstract parameters. -/
def shadeRadiance {D P S : Type}
    (dirLights : List D)
    (pointLights : ℕ → P) (spotLights : ℕ → S)
    (pointLightIndexList spotLightIndexList : ℕ → ℕ)
    (pointLightGrid spotLightGrid : ℕ → LightGrid)
    (calcDirectionalLight : D → Vec3) (calcPointLight : P → Vec3)
    (calcSpotLight : S → Vec3)
    (indirectLightingIBL emission : Vec3)
    (clusterIndex1D : ℕ) : Vec3 :=
  let r0 : Vec3 := dirLights.foldl (fun acc dl => acc + calcDirectionalLight dl) 0
  let pg := pointLightGrid clusterIndex1D
  let r1 : Vec3 := (List.range pg.count).foldl
    (fun acc i => acc + calcPointLight (pointLights (pointLightIndexList (pg.offset + i)))) r0
  let sg := spotLightGrid clusterIndex1D
  let r2 : Vec3 := (List.range sg.count).foldl
    (fun acc i => acc + calcSpotLight (spotLights (spotLightIndexList (sg.offset + i)))) r1
  r2 + indirectLightingIBL + emission

/-- C6: the shading stage accumulates every directional light of the
directional-light buffer — independently of the fragment's cluster — while
point and spot contributions come only from the cluster's `{offset, count}`
index range. -/
theorem shadeRadiance_directional_not_culled {D P S : Type}
    (dirLights : List D)
    (pointLights : ℕ → P) (spotLights : ℕ → S)
    (pointLightIndexList spotLightIndexList : ℕ → ℕ)
    (pointLightGrid spotLightGrid : ℕ → LightGrid)
    (calcDirectionalLight : D → Vec3) (calcPointLight : P → Vec3)
    (calcSpotLight : S → Vec3)
    (indirectLightingIBL emission : Vec3)
    (clusterIndex1D : ℕ) :
    shadeRadiance dirLights pointLights spotLights
        pointLightIndexList spotLightIndexList pointLightGrid spotLightGrid
        calcDirectionalLight calcPointLight calcSpotLight
        indirectLightingIBL emission clusterIndex1D
      = (dirLights.map calcDirectionalLight).sum
        + ((List.range (pointLightGrid clusterIndex1D).count).map
            (fun i => calcPointLight (pointLights (pointLightIndexList
              ((pointLightGrid clusterIndex1D).offset + i))))).sum
        + ((List.range (spotLightGrid clusterIndex1D).count).map
            (fun i => calcSpotLight (spotLights (spotLightIndexList
              ((spotLightGrid clusterIndex1D).offset + i))))).sum
        + indirectLightingIBL + emission := by
  simp only [shadeRadiance, foldl_add_eq_sum]
  abel

/-- Modelled from the spec: the Light Culler compute shader is not part of
this source snapshot.  Spec 4.5: one work group per active cluster; a group
accumulates its surviving light indices locally, performs a single atomic
bump of the global allocation counter to reserve a contiguous range, and
stores `{offset, count}` into its cluster's grid entry; no runtime bounds
check exists.  `survivingCounts` lists, in allocation order, each active
cluster's number of surviving lights; the result lists each cluster's
`{offset, count}` grid entry. -/
def cullLightsAlloc : ℕ → List ℕ → List (ℕ × ℕ)
  | _, [] => []
  | counter, k :: ks => (counter, k) :: cullLightsAlloc (counter + k) ks

/-- Modelled from the spec: a whole Light Culler dispatch, starting from the
allocation counter reset to `0` at the start of the frame. -/
def cullLights (survivingCounts : List ℕ) : List (ℕ × ℕ) :=
  cullLightsAlloc 0 survivingCounts

theorem cullLightsAlloc_entry_le (counter : ℕ) (ks : List ℕ) :
    ∀ p ∈ cullLightsAlloc counter ks, p.1 + p.2 ≤ counter + ks.sum := by
  induction ks generalizing counter with
  | nil => simp [cullLightsAlloc]
  | cons k ks ih =>
    intro p hp
    simp only [cullLightsAlloc, List.mem_cons] at hp
    rcases hp with h | h
    · subst h
      simp only [List.sum_cons]
      omega
    · have := ih (counter + k) p h
      simp only [List.sum_cons]
      omega

theorem cullLightsAlloc_counts (counter : ℕ) (ks : List ℕ) :
    (cullLightsAlloc counter ks).map Prod.snd = ks := by
  induction ks generalizing counter with
  | nil => simp [cullLightsAlloc]
  | cons k ks ih => simp [cullLightsAlloc, ih]

/-- C7 counterexample: the culler performs no bounds check, so with an index
pool of capacity `1` and a single active cluster with `2` surviving lights the
written grid entry violates `offset + count ≤ capacity`, and the per-cluster
counts sum to more than the capacity. -/
theorem cullLights_overflow_counterexample :
    (0, 2) ∈ cullLights [2] ∧ ¬((0 : ℕ) + 2 ≤ 1) ∧
    ¬(((cullLights [2]).map Prod.snd).sum ≤ 1) := by
  refine ⟨?_, by norm_num, ?_⟩
  · show (0, 2) ∈ cullLightsAlloc 0 [2]
    simp [cullLightsAlloc]
  · show ¬(((cullLightsAlloc 0 [2]).map Prod.snd).sum ≤ 1)
    simp [cullLightsAlloc]

/-- C7 (amended): provided the caller pre-sized the pool adequately — the
total number of surviving light indices is at most the pool capacity — every
cluster's grid entry written by the Light Culler satisfies
`offset + count ≤ capacity`, and the counts over all active clusters sum to
at most the capacity. -/
theorem cullLights_within_capacity (survivingCounts : List ℕ) (capacity : ℕ)
    (hcap : survivingCounts.sum ≤ capacity) :
    (∀ p ∈ cullLights survivingCounts, p.1 + p.2 ≤ capacity) ∧
    ((cullLights survivingCounts).map Prod.snd).sum ≤ capacity := by
  constructor
  · intro p hp
    have := cullLightsAlloc_entry_le 0 survivingCounts p hp
    omega
  · rw [cullLights, cullLightsAlloc_counts]
    exact hcap

/-- C7 witness: two active clusters with 1 and 2 surviving lights against a
pool of capacity 5. -/
theorem cullLights_within_capacity_witness :
    ([1, 2] : List ℕ).sum ≤ 5 ∧
    ((∀ p ∈ cullLights [1, 2], p.1 + p.2 ≤ 5) ∧
     ((cullLights [1, 2]).map Prod.snd).sum ≤ 5) :=
  ⟨by decide, cullLights_within_capacity [1, 2] 5 (by decide)⟩

/-- A cluster's view-space axis-aligned bounding box. -/
structure ClusterAABB where
  minPoint : Vec3
  maxPoint : Vec3

/-- Camera state feeding the Cluster Grid Builder, as uploaded by
`ClusteredShading::init_app` (`zNear`, `zFar`, `clusterSize`,
`inverseProjection`); `invProj` abstracts the application of the inverse
projection to a screen-space tile corner, yielding a view-space ray. -/
structure GridBuilderParams where
  nearZ : ℝ
  farZ : ℝ
  clusterSizeX : ℝ
  clusterSizeY : ℝ
  invProj : ℝ × ℝ → Vec3
  gridDimX : ℕ
  gridDimY : ℕ
  gridDimZ : ℕ

/-- Modelled from the spec: geometric Z-slice depth of slice boundary `k`:
`near * (far / near) ^ (k / Gz)` (spec 4.1: "unproject near/far planes at
depths derived from the geometric Z-slice formula"). -/
noncomputable def sliceDepth (p : GridBuilderParams) (k : ℕ) : ℝ :=
  p.nearZ * (p.farZ / p.nearZ) ^ ((k : ℝ) / (p.gridDimZ : ℝ))

/-- Modelled from the spec: intersecting a view-space ray from the camera
origin with the depth plane `z = d` (spec 4.1: "intersect the resulting view
rays with the slice's near/far depth planes"). -/
noncomputable def rayAtDepth (ray : Vec3) (d : ℝ) : Vec3 :=
  (ray.1 * (d / ray.2.2), ray.2.1 * (d / ray.2.2), ray.2.2 * (d / ray.2.2))

/-- Componentwise minimum of two view-space points. -/
noncomputable def vmin (a b : Vec3) : Vec3 :=
  (min a.1 b.1, min a.2.1 b.2.1, min a.2.2 b.2.2)

/-- Componentwise maximum of two view-space points. -/
noncomputable def vmax (a b : Vec3) : Vec3 :=
  (max a.1 b.1, max a.2.1 b.2.1, max a.2.2 b.2.2)

/-- Modelled from the spec: the Cluster Grid Builder compute shader
(`generate_clusters.comp`) is not part of this source snapshot (only its
dispatch setup in `init_app` is).  Spec 4.1: for cluster `(x,y,z)`, take the
four screen-space corners of the `(x,y)` tile, unproject them, intersect the
view rays with the slice's near/far depth planes to get 8 corners, and take
their componentwise min/max. -/
noncomputable def clusterAABB (p : GridBuilderParams) (i : ℕ) : ClusterAABB :=
  let x := i % p.gridDimX
  let y := i / p.gridDimX % p.gridDimY
  let z := i / (p.gridDimX * p.gridDimY)
  let x0 := (x : ℝ) * p.clusterSizeX
  let x1 := ((x : ℝ) + 1) * p.clusterSizeX
  let y0 := (y : ℝ) * p.clusterSizeY
  let y1 := ((y : ℝ) + 1) * p.clusterSizeY
  let r00 := p.invProj (x0, y0)
  let r10 := p.invProj (x1, y0)
  let r01 := p.invProj (x0, y1)
  let r11 := p.invProj (x1, y1)
  let dN := sliceDepth p z
  let dF := sliceDepth p (z + 1)
  let c0 := rayAtDepth r00 dN
  let c1 := rayAtDepth r10 dN
  let c2 := rayAtDepth r01 dN
  let c3 := rayAtDepth r11 dN
  let c4 := rayAtDepth r00 dF
  let c5 := rayAtDepth r10 dF
  let c6 := rayAtDepth r01 dF
  let c7 := rayAtDepth r11 dF
  ClusterAABB.mk
    (vmin c0 (vmin c1 (vmin c2 (vmin c3 (vmin c4 (vmin c5 (vmin c6 c7)))))))
    (vmax c0 (vmax c1 (vmax c2 (vmax c3 (vmax c4 (vmax c5 (vmax c6 c7)))))))

/-- Modelled from the spec: one Grid Builder dispatch — one work item per
cluster, each overwriting its own (disjoint) cluster's AABB in the clusters
SSBO (spec 4.1: "no data hazards since each work item writes a disjoint
cluster"). -/
noncomputable def buildClusterGrid (p : GridBuilderParams)
    (buffer : ℕ → ClusterAABB) : ℕ → ClusterAABB :=
  (List.range (p.gridDimX * p.gridDimY * p.gridDimZ)).foldl
    (fun b i => Function.update b i (clusterAABB p i)) buffer

/-- Applying a fold of per-index overwrites: an index listed gets its computed
value, any other index keeps the initial buffer's value. -/
theorem foldl_update_apply {α : Type} (g : ℕ → α) (l : List ℕ) (b : ℕ → α) (j : ℕ) :
    (l.foldl (fun f i => Function.update f i (g i)) b) j
      = if j ∈ l then g j else b j := by
  induction l generalizing b with
  | nil => simp
  | cons i l ih =>
    simp only [List.foldl_cons, ih, List.mem_cons]
    by_cases hj : j ∈ l
    · simp [hj]
    · by_cases hji : j = i
      · subst hji
        simp [hj, Function.update_apply]
      · simp [hj, hji, Function.update_apply]

/-- C8: re-running the Cluster Grid Builder with unchanged camera parameters
reproduces the identical ClusterAABB array — the second run leaves every
cluster's AABB exactly as the first run wrote it. -/
theorem buildClusterGrid_idempotent (p : GridBuilderParams)
    (buffer : ℕ → ClusterAABB) :
    buildClusterGrid p (buildClusterGrid p buffer) = buildClusterGrid p buffer := by
  funext j
  simp only [buildClusterGrid, foldl_update_apply]
  split_ifs with h
  · rfl
  · rfl

theorem cTrunc_of_nonneg {x : ℝ} (h : 0 ≤ x) : cTrunc x = ⌊x⌋ := if_pos h

/-- For a nonnegative dividend, C `fmodf x 2` lies in `[0, 2)`. -/
theorem rfmod_two_bounds {x : ℝ} (h : 0 ≤ x) : 0 ≤ rfmod x 2 ∧ rfmod x 2 < 2 := by
  have h2 : cTrunc (x / 2) = ⌊x / 2⌋ := cTrunc_of_nonneg (by positivity)
  unfold rfmod
  rw [h2]
  have hle := Int.floor_le (x / 2)
  have hlt := Int.lt_floor_add_one (x / 2)
  constructor <;> [linarith; linarith]

/-- `hsv2rgb` from `clustered_shading.cpp`.  The `switch` on
`static_cast<int>(H2)` leaves the local `RGB` uninitialized when no case in
`0 … 5` applies; that fall-through is modelled as `none`.  Each `some` entry
already includes the final `RGB + m`. -/
noncomputable def hsv2rgb (H S V : ℝ) : Option Vec3 :=
  let C := V * S
  let m := V - C
  let H2 := H / 60
  let X := C * (1 - |rfmod H2 2 - 1|)
  let k := cTrunc H2
  if k = 0 then some (C + m, X + m, 0 + m)
  else if k = 1 then some (X + m, C + m, 0 + m)
  else if k = 2 then some (0 + m, C + m, X + m)
  else if k = 3 then some (0 + m, X + m, C + m)
  else if k = 4 then some (X + m, 0 + m, C + m)
  else if k = 5 then some (C + m, 0 + m, X + m)
  else none

/-- C9: for `H ∈ [0, 360)` and `S, V ∈ [0, 1]` one of the six switch cases
applies and all three resulting components lie in `[0, 1]`; at the boundary
hue `360` no case applies (the vector stays uninitialized); and `360` lies in
the hue range `[1, 360]` that `GeneratePointLights` draws from
(`glm::linearRand(1.0f, 360.0f)`, inclusive bounds). -/
theorem hsv2rgb_spec :
    (∀ H S V : ℝ, 0 ≤ H → H < 360 → 0 ≤ S → S ≤ 1 → 0 ≤ V → V ≤ 1 →
      ∃ r g b : ℝ, hsv2rgb H S V = some (r, g, b) ∧
        0 ≤ r ∧ r ≤ 1 ∧ 0 ≤ g ∧ g ≤ 1 ∧ 0 ≤ b ∧ b ≤ 1) ∧
    (∀ S V : ℝ, hsv2rgb 360 S V = none) ∧
    (360 : ℝ) ∈ Set.Icc (1 : ℝ) 360 := by
  refine ⟨?_, ?_, by norm_num⟩
  · intro H S V hH0 hH360 hS0 hS1 hV0 hV1
    have hH2 : (0 : ℝ) ≤ H / 60 := by positivity
    have hk : cTrunc (H / 60) = ⌊H / 60⌋ := cTrunc_of_nonneg hH2
    have hk0 : 0 ≤ ⌊H / 60⌋ := Int.floor_nonneg.mpr hH2
    have hk6 : ⌊H / 60⌋ < 6 := by
      rw [Int.floor_lt]
      push_cast
      linarith
    have hC0 : 0 ≤ V * S := mul_nonneg hV0 hS0
    have hCV : V * S ≤ V := mul_le_of_le_one_right hV0 hS1
    have hfb := rfmod_two_bounds hH2
    have habs : |rfmod (H / 60) 2 - 1| ≤ 1 :=
      abs_le.mpr ⟨by linarith [hfb.1], by linarith [hfb.2]⟩
    have habs0 : 0 ≤ |rfmod (H / 60) 2 - 1| := abs_nonneg _
    have hX0 : 0 ≤ V * S * (1 - |rfmod (H / 60) 2 - 1|) := mul_nonneg hC0 (by linarith)
    have hXC : V * S * (1 - |rfmod (H / 60) 2 - 1|) ≤ V * S :=
      mul_le_of_le_one_right hC0 (by linarith)
    have hA : 0 ≤ V * S + (V - V * S) ∧ V * S + (V - V * S) ≤ 1 := ⟨by linarith, by linarith⟩
    have hB : 0 ≤ V * S * (1 - |rfmod (H / 60) 2 - 1|) + (V - V * S) ∧
        V * S * (1 - |rfmod (H / 60) 2 - 1|) + (V - V * S) ≤ 1 := ⟨by linarith, by linarith⟩
    have hm : 0 ≤ 0 + (V - V * S) ∧ 0 + (V - V * S) ≤ 1 := ⟨by linarith, by linarith⟩
    obtain ⟨k, hkeq⟩ : ∃ k : ℤ, ⌊H / 60⌋ = k := ⟨_, rfl⟩
    rw [hkeq] at hk0 hk6
    interval_cases k
    · exact ⟨_, _, _, by simp only [hsv2rgb, hk, hkeq]; norm_num,
        hA.1, hA.2, hB.1, hB.2, hm.1, hm.2⟩
    · exact ⟨_, _, _, by simp only [hsv2rgb, hk, hkeq]; norm_num,
        hB.1, hB.2, hA.1, hA.2, hm.1, hm.2⟩
    · exact ⟨_, _, _, by simp only [hsv2rgb, hk, hkeq]; norm_num,
        hm.1, hm.2, hA.1, hA.2, hB.1, hB.2⟩
    · exact ⟨_, _, _, by simp only [hsv2rgb, hk, hkeq]; norm_num,
        hm.1, hm.2, hB.1, hB.2, hA.1, hA.2⟩
    · exact ⟨_, _, _, by simp only [hsv2rgb, hk, hkeq]; norm_num,
        hB.1, hB.2, hm.1, hm.2, hA.1, hA.2⟩
    · exact ⟨_, _, _, by simp only [hsv2rgb, hk, hkeq]; norm_num,
        hA.1, hA.2, hm.1, hm.2, hB.1, hB.2⟩
  · intro S V
    have hk : cTrunc ((360 : ℝ) / 60) = 6 := by
      rw [cTrunc_of_nonneg (by norm_num)]
      rw [show (360 : ℝ) / 60 = 6 by norm_num]
      exact_mod_cast Int.floor_intCast 6
    simp only [hsv2rgb, hk]
    norm_num

/-- C9 witness at hue 30, saturation 1/2, value 1/2. -/
theorem hsv2rgb_spec_witness :
    ((0 : ℝ) ≤ 30 ∧ (30 : ℝ) < 360 ∧ (0 : ℝ) ≤ 1 / 2 ∧ (1 / 2 : ℝ) ≤ 1) ∧
    (∃ r g b : ℝ, hsv2rgb 30 (1 / 2) (1 / 2) = some (r, g, b) ∧
      0 ≤ r ∧ r ≤ 1 ∧ 0 ≤ g ∧ g ≤ 1 ∧ 0 ≤ b ∧ b ≤ 1) :=
  ⟨⟨by norm_num, by norm_num, by norm_num, by norm_num⟩,
   hsv2rgb_spec.1 30 (1 / 2) (1 / 2) (by norm_num) (by norm_num) (by norm_num)
     (by norm_num) (by norm_num) (by norm_num)⟩

/-- The demo's `PointLight` record (`clustered_shading.h`): `{color,
intensity}` from `BaseLight` plus `{position, radius}`.  The color may be
uninitialized (see `hsv2rgb`), hence `Option`. -/
structure PointLightM where
  color : Option Vec3
  intensity : ℝ
  position : Vec3
  radius : ℝ

/-- `ClusteredShading::GeneratePointLights`.  Each `glm::linearRand(lo, hi)`
call is modelled by the oracle `rnd`, indexed by call number in program order
(eight calls per light); `linearRand`'s contract is `lo ≤ rnd n lo hi ≤ hi`.
Both output vectors are resized to `count` and every element is assigned:
the ellipse entry is `vec4(rand_x, rand_z, speed, 0)` and the position is
`(e.x * cos(0.01 * e.z), rand_y, e.y * sin(0.01 * e.z))`. -/
noncomputable def generatePointLights (count : ℕ) (pointLightsIntensity : ℝ)
    (radiusMin radiusMax : ℝ) (rnd : ℕ → ℝ → ℝ → ℝ) :
    List PointLightM × List (ℝ × ℝ × ℝ × ℝ) :=
  let mk : ℕ → PointLightM × (ℝ × ℝ × ℝ × ℝ) := fun i =>
    let randX := rnd (8 * i) (-11) 11
    let randZ := rnd (8 * i + 1) (-6) 6
    let col := hsv2rgb (rnd (8 * i + 2) 1 360) (rnd (8 * i + 3) 0.1 1)
      (rnd (8 * i + 4) 0.1 1)
    let posY := rnd (8 * i + 5) 0.5 12
    let radius := rnd (8 * i + 6) radiusMin radiusMax
    let speed := rnd (8 * i + 7) 0.5 2
    let e := (randX, randZ, speed, (0 : ℝ))
    let posX := e.1 * Real.cos (0.01 * e.2.2.1)
    let posZ := e.2.1 * Real.sin (0.01 * e.2.2.1)
    (PointLightM.mk col pointLightsIntensity (posX, posY, posZ) radius, e)
  ((List.range count).map (fun i => (mk i).1),
   (List.range count).map (fun i => (mk i).2))

/-- C10: after `GeneratePointLights`, the point-light list and the
ellipse-radii list both have exactly `count` elements, and every generated
light has the configured intensity, a radius within the configured min/max
radii, and a position `y` within `[0.5, 12]`. -/
theorem generatePointLights_spec (count : ℕ)
    (pointLightsIntensity radiusMin radiusMax : ℝ) (rnd : ℕ → ℝ → ℝ → ℝ)
    (hrad : radiusMin ≤ radiusMax)
    (hrnd : ∀ (n : ℕ) (lo hi : ℝ), lo ≤ hi → lo ≤ rnd n lo hi ∧ rnd n lo hi ≤ hi) :
    (generatePointLights count pointLightsIntensity radiusMin radiusMax rnd).1.length
        = count ∧
    (generatePointLights count pointLightsIntensity radiusMin radiusMax rnd).2.length
        = count ∧
    ∀ p ∈ (generatePointLights count pointLightsIntensity radiusMin radiusMax rnd).1,
      p.intensity = pointLightsIntensity ∧
      radiusMin ≤ p.radius ∧ p.radius ≤ radiusMax ∧
      (0.5 : ℝ) ≤ p.position.2.1 ∧ p.position.2.1 ≤ 12 := by
  refine ⟨by simp [generatePointLights], by simp [generatePointLights], ?_⟩
  intro p hp
  simp only [generatePointLights, List.mem_map, List.mem_range] at hp
  obtain ⟨i, hi, hpe⟩ := hp
  subst hpe
  exact ⟨rfl, (hrnd _ _ _ hrad).1, (hrnd _ _ _ hrad).2,
    (hrnd _ _ _ (by norm_num)).1, (hrnd _ _ _ (by norm_num)).2⟩

/-- C10 witness: the demo defaults (`m_point_lights_count = 50`, intensity 1,
`min_max_point_light_radius = (10, 300)`) with the lower-bound oracle. -/
theorem generatePointLights_spec_witness :
    (generatePointLights 50 1 10 300 (fun _ lo _ => lo)).1.length = 50 ∧
    (generatePointLights 50 1 10 300 (fun _ lo _ => lo)).2.length = 50 ∧
    ∀ p ∈ (generatePointLights 50 1 10 300 (fun _ lo _ => lo)).1,
      p.intensity = 1 ∧ (10 : ℝ) ≤ p.radius ∧ p.radius ≤ 300 ∧
      (0.5 : ℝ) ≤ p.position.2.1 ∧ p.position.2.1 ≤ 12 :=
  generatePointLights_spec 50 1 10 300 (fun _ lo _ => lo) (by norm_num)
    (fun n lo hi h => ⟨le_rfl, h⟩)

/-- C1 counterexample: take the host configuration `near = 0.01`, `far = 300`,
`Gz = 24` and the shader's scale uniform carrying the natural-log equivalent
`Gz / log(far/near)` of the host's `m_slice_scale` (the wiring under which the
shader's `uint(log(-view_z / near) * scale)` realizes the intended
logarithmic slicing; the host itself never uploads this uniform — it sets
`u_slice_scale` / `u_slice_bias`, which the shader does not declare).  At
view-space depth `0.02 ∈ (near, far)` the computed Z slice is at most `1`,
while `floor(log2(viewZ/near) * slice_scale + slice_bias)` is at least `3`:
the claimed formula adds `slice_bias` on top of a term that already absorbs
it, shifting every slice by `-Gz * log2(near) / log2(far/near) ≈ 10.7`. -/
theorem computeClusterIndex3D_zslice_counterexample :
    (0.01 : ℝ) < 0.02 ∧ (0.02 : ℝ) < 300 ∧
    (((computeClusterIndex3D 0.01 (24 / Real.log (300 / 0.01)) 1 1 0 0
        (-0.02)).2.2 : ℤ)
      ≠ ⌊Real.logb 2 (0.02 / 0.01) * sliceScale 24 0.01 300
          + sliceBias 24 0.01 300⌋) := by
  have hlog2pos : (0 : ℝ) < Real.log 2 := Real.log_pos (by norm_num)
  have hlogS : (0 : ℝ) < Real.log 30000 := Real.log_pos (by norm_num)
  have hne2 : Real.log 2 ≠ 0 := ne_of_gt hlog2pos
  have hneS : Real.log 30000 ≠ 0 := ne_of_gt hlogS
  have h12 : 12 * Real.log 2 < Real.log 30000 := by
    have h1 : Real.log 4096 < Real.log 30000 := Real.log_lt_log (by norm_num) (by norm_num)
    have h2 : Real.log 4096 = 12 * Real.log 2 := by
      rw [show (4096 : ℝ) = 2 ^ 12 by norm_num, Real.log_pow]
      push_cast
      ring
    linarith
  have ht0 : (0 : ℝ) ≤ Real.log 2 * (24 / Real.log 30000) :=
    mul_nonneg hlog2pos.le (by positivity)
  have ht2 : Real.log 2 * (24 / Real.log 30000) < 2 := by
    rw [show Real.log 2 * (24 / Real.log 30000) = 24 * Real.log 2 / Real.log 30000 by ring]
    rw [div_lt_iff₀ hlogS]
    linarith
  have hz : (computeClusterIndex3D 0.01 (24 / Real.log (300 / 0.01)) 1 1 0 0
      (-0.02)).2.2 = (cTrunc (Real.log 2 * (24 / Real.log 30000))).toNat := by
    simp only [computeClusterIndex3D, uintOfReal]
    norm_num
  have hfloor : cTrunc (Real.log 2 * (24 / Real.log 30000))
      = ⌊Real.log 2 * (24 / Real.log 30000)⌋ := cTrunc_of_nonneg ht0
  have hfl0 : 0 ≤ ⌊Real.log 2 * (24 / Real.log 30000)⌋ := Int.floor_nonneg.mpr ht0
  have hfl1 : ⌊Real.log 2 * (24 / Real.log 30000)⌋ ≤ 1 := by
    have : ⌊Real.log 2 * (24 / Real.log 30000)⌋ < 2 := by
      rw [Int.floor_lt]
      push_cast
      linarith
    omega
  have h200 : Real.log 2 + Real.log 100 = Real.log 200 := by
    rw [← Real.log_mul (by norm_num) (by norm_num)]
    norm_num
  have h8 : Real.log 30000 ≤ 8 * Real.log 200 := by
    have h1 : Real.log 30000 ≤ Real.log (200 ^ 8) :=
      Real.log_le_log (by norm_num) (by norm_num)
    rw [Real.log_pow] at h1
    push_cast at h1
    linarith
  have hy : Real.logb 2 (0.02 / 0.01) * sliceScale 24 0.01 300 + sliceBias 24 0.01 300
      = 24 * (Real.log 2 + Real.log 100) / Real.log 30000 := by
    simp only [sliceScale, sliceBias, Real.logb]
    norm_num
    rw [one_div, Real.log_inv]
    field_simp
    ring
  have hy3 : (3 : ℝ) ≤ Real.logb 2 (0.02 / 0.01) * sliceScale 24 0.01 300
      + sliceBias 24 0.01 300 := by
    rw [hy, h200, le_div_iff₀ hlogS]
    linarith
  have hyfl : (3 : ℤ) ≤ ⌊Real.logb 2 (0.02 / 0.01) * sliceScale 24 0.01 300
      + sliceBias 24 0.01 300⌋ := Int.le_floor.mpr (by exact_mod_cast hy3)
  refine ⟨by norm_num, by norm_num, ?_⟩
  rw [hz, hfloor, Int.toNat_of_nonneg hfl0]
  omega

/-- C1 (amended): with the scale uniform carrying `Gz / log(far/near)` — the
natural-log form of the host's `m_slice_scale` — the Z component of the
cluster index computed by the lookup for a fragment at view-space depth
`viewZ ∈ [near, far)` equals `floor(log2(viewZ) * slice_scale + slice_bias)`
(equivalently `floor(log2(viewZ/near) * slice_scale)`, without the extra
`slice_bias` of the claimed formula), so depth slices do grow geometrically
with distance. -/
theorem computeClusterIndex3D_zslice_log (gz n f v csx csy sx sy : ℝ)
    (hn : 0 < n) (hnf : n < f) (hnv : n ≤ v) (hgz : 0 ≤ gz) :
    ((computeClusterIndex3D n (gz / Real.log (f / n)) csx csy sx sy (-v)).2.2 : ℤ)
      = ⌊Real.logb 2 v * sliceScale gz n f + sliceBias gz n f⌋ ∧
    ((computeClusterIndex3D n (gz / Real.log (f / n)) csx csy sx sy (-v)).2.2 : ℤ)
      = ⌊Real.logb 2 (v / n) * sliceScale gz n f⌋ := by
  have hv0 : 0 < v := lt_of_lt_of_le hn hnv
  have hfn1 : 1 < f / n := (one_lt_div hn).mpr hnf
  have hlfn : 0 < Real.log (f / n) := Real.log_pos hfn1
  have hvn1 : 1 ≤ v / n := (one_le_div hn).mpr hnv
  have hlvn : 0 ≤ Real.log (v / n) := Real.log_nonneg hvn1
  have hln2 : Real.log 2 ≠ 0 := ne_of_gt (Real.log_pos (by norm_num))
  have hlfn' : Real.log (f / n) ≠ 0 := ne_of_gt hlfn
  have ht0 : 0 ≤ Real.log (v / n) * (gz / Real.log (f / n)) :=
    mul_nonneg hlvn (div_nonneg hgz hlfn.le)
  have hz : (computeClusterIndex3D n (gz / Real.log (f / n)) csx csy sx sy (-v)).2.2
      = (⌊Real.log (v / n) * (gz / Real.log (f / n))⌋).toNat := by
    simp only [computeClusterIndex3D, uintOfReal, neg_neg]
    rw [cTrunc_of_nonneg ht0]
  have hreal : Real.log (v / n) * (gz / Real.log (f / n))
      = Real.logb 2 v * sliceScale gz n f + sliceBias gz n f := by
    simp only [sliceScale, sliceBias, Real.logb]
    rw [Real.log_div (ne_of_gt hv0) (ne_of_gt hn)]
    field_simp
    ring
  have hreal2 : Real.log (v / n) * (gz / Real.log (f / n))
      = Real.logb 2 (v / n) * sliceScale gz n f := by
    simp only [sliceScale, Real.logb]
    field_simp
    ring
  constructor
  · rw [hz, Int.toNat_of_nonneg (Int.floor_nonneg.mpr ht0), hreal]
  · rw [hz, Int.toNat_of_nonneg (Int.floor_nonneg.mpr ht0), hreal2]

/-- C1 witness: the host configuration `near = 0.01`, `far = 300`, `Gz = 24`
at view depth `2`. -/
theorem computeClusterIndex3D_zslice_log_witness :
    ((0 : ℝ) < 0.01 ∧ (0.01 : ℝ) < 300 ∧ (0.01 : ℝ) ≤ 2 ∧ (0 : ℝ) ≤ 24) ∧
    (((computeClusterIndex3D 0.01 (24 / Real.log (300 / 0.01)) 1 1 0 0
        (-2)).2.2 : ℤ)
      = ⌊Real.logb 2 2 * sliceScale 24 0.01 300 + sliceBias 24 0.01 300⌋ ∧
     ((computeClusterIndex3D 0.01 (24 / Real.log (300 / 0.01)) 1 1 0 0
        (-2)).2.2 : ℤ)
      = ⌊Real.logb 2 (2 / 0.01) * sliceScale 24 0.01 300⌋) :=
  ⟨⟨by norm_num, by norm_num, by norm_num, by norm_num⟩,
   computeClusterIndex3D_zslice_log 24 0.01 300 2 1 1 0 0 (by norm_num)
     (by norm_num) (by norm_num) (by norm_num)⟩
